import Mathlib

/-!
Verification of the stackbt behavior-tree composition engine.

This file gives a shallow embedding of the three source modules
`behavior_tree_node.rs`, `serial_node.rs` and `homogeneous_serial_node.rs`:

* `Statepoint` and `NodeResult` embed the two tagged-union value shapes.
* `EnumNodeImpl` bundles the `EnumNode` trait dictionary (a `BehaviorTreeNode`
  step function together with `new` and `discriminant_of`); a node instance is
  a value of the state type `σ`.
* `SerialDecider` embeds the decider trait as a record of its two entry
  points (a Rust decider value `d : D` corresponds to the record of its two
  partially applied methods; `&self` methods cannot change `d`, so the record
  is a faithful image of the threaded decider value).
* `SerialBranchNode` and `SerialBranchNode.step` embed the composite and its
  step function, line for line from the source.
* Namespace `Homogeneous` embeds `homogeneous_serial_node.rs` the same way.
* `MultiMachine`, `PosNegEnum` and `switcharound` embed the concrete
  machinery of the `serial_switcharound_test` (the `enum_node!` macro
  expansion written out by hand, as the expansion in the source dictates).
-/

/-- Embedding of `Statepoint<N, T>`: a bare nonterminal-or-terminal tag. -/
inductive Statepoint (N T : Type) where
  | Nonterminal (n : N)
  | Terminal (t : T)
deriving Repr

/-- Embedding of `NodeResult<R, T, N>`: the step contract's return value.
The nonterminal variant carries the continuation node; the terminal variant
carries only the terminal value. -/
inductive NodeResult (R T N : Type) where
  | Nonterminal (r : R) (n : N)
  | Terminal (t : T)
deriving Repr

/-- The continuation carried by a step result, when one exists: only the
`Nonterminal` variant of `NodeResult` holds a node instance. -/
def NodeResult.continuation : NodeResult R T N → Option N
  | .Nonterminal _ n => some n
  | .Terminal _ => none

/-- Trait dictionary for `EnumNode`: a behavior-tree step function on the
node state type `σ`, together with `new` (construct from a discriminant) and
`discriminant_of` (report the current variant). -/
structure EnumNodeImpl (En σ I N T : Type) where
  new : En → σ
  discriminant_of : σ → En
  step : σ → I → NodeResult N T σ

/-- Embedding of `serial_node::NontermDecision<E, T, X>`. -/
inductive NontermDecision (E T X : Type) where
  | Step (t : T)
  | Trans (e : E) (t : T)
  | Exit (x : X)
deriving Repr

/-- Embedding of `serial_node::TermDecision<E, T, X>`. -/
inductive TermDecision (E T X : Type) where
  | Trans (e : E) (t : T)
  | Exit (x : X)
deriving Repr

/-- Embedding of `serial_node::NontermReturn<E, N, T>`. -/
inductive NontermReturn (E N T : Type) where
  | Nonterminal (e : E) (n : N)
  | Terminal (e : E) (t : T)
deriving Repr

/-- The selector component embedded in a `NontermReturn` value. -/
def NontermReturn.selector : NontermReturn E N T → E
  | .Nonterminal e _ => e
  | .Terminal e _ => e

/-- Trait dictionary for `serial_node::SerialDecider`: the two decision entry
points, taking the input, the pre-step discriminant and the subnode value. -/
structure SerialDecider (En I N T X : Type) where
  on_nonterminal : I → En → N → NontermDecision En N X
  on_terminal : I → En → T → TermDecision En T X

/-- Embedding of `SerialBranchNode<E, D>`: a live enumerated-node instance
together with the decider. -/
structure SerialBranchNode (En σ I N T X : Type) where
  node : σ
  decider : SerialDecider En I N T X

/-- Embedding of `SerialBranchNode::new`: construct the subnode fresh from
the given discriminant. -/
def SerialBranchNode.new (impl : EnumNodeImpl En σ I N T)
    (decider : SerialDecider En I N T X) (variant : En) :
    SerialBranchNode En σ I N T X :=
  { node := impl.new variant, decider := decider }

/-- Embedding of `SerialBranchNode::from_existing`: wrap an already-live
enumerated node. -/
def SerialBranchNode.from_existing (decider : SerialDecider En I N T X)
    (existing : σ) : SerialBranchNode En σ I N T X :=
  { node := existing, decider := decider }

/-- Embedding of `SerialBranchNode::step` (serial_node.rs lines 216-242):
read the discriminant before stepping, step the subnode, hand the raw result
plus that discriminant to the decider, and apply the decision. -/
def SerialBranchNode.step (impl : EnumNodeImpl En σ I N T)
    (self : SerialBranchNode En σ I N T X) (input : I) :
    NodeResult (NontermReturn En N T) X (SerialBranchNode En σ I N T X) :=
  let discriminant := impl.discriminant_of self.node
  match impl.step self.node input with
  | .Nonterminal i n =>
    match self.decider.on_nonterminal input discriminant i with
    | .Step j => .Nonterminal (.Nonterminal discriminant j)
        (SerialBranchNode.from_existing self.decider n)
    | .Trans e j => .Nonterminal (.Nonterminal discriminant j)
        (SerialBranchNode.new impl self.decider e)
    | .Exit x => .Terminal x
  | .Terminal i =>
    match self.decider.on_terminal input discriminant i with
    | .Trans e j => .Nonterminal (.Terminal discriminant j)
        (SerialBranchNode.new impl self.decider e)
    | .Exit x => .Terminal x

/-- Embedding of `Default for SerialBranchNode` (serial_node.rs lines
195-204): `SerialBranchNode::new(D::default(), from_u64(0).unwrap())`.
The `unwrap` panic on a `None` conversion is embedded as `none`. -/
def SerialBranchNode.defaultNode (impl : EnumNodeImpl En σ I N T)
    (from_u64 : Nat → Option En) (dDefault : SerialDecider En I N T X) :
    Option (SerialBranchNode En σ I N T X) :=
  match from_u64 0 with
  | some s => some (SerialBranchNode.new impl dDefault s)
  | none => none

/-- Modelled from the spec: `base_nodes::PredicateWait` is referenced by the
switcharound test but its module is not under src/. Per the spec it is a
concrete leaf node holding a predicate from the input to a `Statepoint`;
its step applies the predicate, returning the nonterminal value with itself
as continuation, or the terminal value alone. -/
structure PredicateWait (I N T : Type) where
  predicate : I → Statepoint N T

/-- Step of the modelled `PredicateWait` leaf node. -/
def PredicateWait.step (self : PredicateWait I N T) (input : I) :
    NodeResult N T (PredicateWait I N T) :=
  match self.predicate input with
  | .Nonterminal n => .Nonterminal n self
  | .Terminal t => .Terminal t

/-- The discriminant enum `PosNegEnum` generated by `enum_node!` in the
switcharound test. -/
inductive PosNegEnum where
  | Positive
  | Negative
deriving Repr, DecidableEq

/-- The `FromPrimitive` derive on `PosNegEnum`: variant indices in
declaration order, `None` out of range. -/
def PosNegEnum.from_u64 : Nat → Option PosNegEnum
  | 0 => some .Positive
  | 1 => some .Negative
  | _ => none

/-- The predicate of the `Positive` variant in the switcharound test:
nonterminal echoing the input when it is nonnegative, terminal with the
input otherwise. -/
def positivePredicate : Int → Statepoint Int Int := fun input =>
  if input ≥ 0 then .Nonterminal input else .Terminal input

/-- The predicate of the `Negative` variant in the switcharound test: the
same with the value negated. -/
def negativePredicate : Int → Statepoint Int Int := fun input =>
  if input ≥ 0 then .Nonterminal (-input) else .Terminal (-input)

/-- The `MultiMachine` enumerated node of the switcharound test: the
`enum_node!` expansion with payloads as written in the test. -/
inductive MultiMachine where
  | Positive (val : PredicateWait Int Int Int)
  | Negative (val : PredicateWait Int Int Int)

/-- Step of `MultiMachine` as generated by `enum_node!` (serial_node.rs
lines 61-76): step the payload, rewrapping the continuation in the same
variant. -/
def MultiMachine.step : MultiMachine → Int → NodeResult Int Int MultiMachine
  | .Positive val, input =>
    match val.step input with
    | .Nonterminal v o => .Nonterminal v (.Positive o)
    | .Terminal v => .Terminal v
  | .Negative val, input =>
    match val.step input with
    | .Nonterminal v o => .Nonterminal v (.Negative o)
    | .Terminal v => .Terminal v

/-- Construction of `MultiMachine` from a discriminant as generated by
`enum_node!` (serial_node.rs lines 81-89). -/
def MultiMachine.new : PosNegEnum → MultiMachine
  | .Positive => .Positive ⟨positivePredicate⟩
  | .Negative => .Negative ⟨negativePredicate⟩

/-- Discriminant report of `MultiMachine` as generated by `enum_node!`
(serial_node.rs lines 91-95). -/
def MultiMachine.discriminant_of : MultiMachine → PosNegEnum
  | .Positive _ => .Positive
  | .Negative _ => .Negative

/-- The `EnumNode` dictionary of `MultiMachine`. -/
def multiMachineImpl : EnumNodeImpl PosNegEnum MultiMachine Int Int Int :=
  { new := MultiMachine.new
    discriminant_of := MultiMachine.discriminant_of
    step := MultiMachine.step }

/-- The `Switcharound` decider of the test: always `Step` on nonterminal;
on terminal, `Trans` to the opposite variant carrying the value forward. -/
def switcharound : SerialDecider PosNegEnum Int Int Int Unit :=
  { on_nonterminal := fun _ _ o => .Step o
    on_terminal := fun _ state o =>
      match state with
      | .Positive => .Trans .Negative o
      | .Negative => .Trans .Positive o }

/-- C1: end-to-end switcharound scenario. Starting the composite at
`Positive` under the switcharound decider, the input sequence
5, -5, 5, -5, 5 yields, in order, `Nonterminal(Nonterminal(Positive, 5))`,
`Nonterminal(Terminal(Positive, -5))`, `Nonterminal(Nonterminal(Negative, -5))`,
`Nonterminal(Terminal(Negative, 5))`, `Nonterminal(Nonterminal(Positive, 5))`,
each step producing a continuation and the composite never reaching its own
terminal. -/
theorem serial_switcharound_scenario :
    ∃ c1 c2 c3 c4 c5,
      SerialBranchNode.step multiMachineImpl
          (SerialBranchNode.new multiMachineImpl switcharound .Positive) 5
        = .Nonterminal (.Nonterminal .Positive 5) c1 ∧
      SerialBranchNode.step multiMachineImpl c1 (-5)
        = .Nonterminal (.Terminal .Positive (-5)) c2 ∧
      SerialBranchNode.step multiMachineImpl c2 5
        = .Nonterminal (.Nonterminal .Negative (-5)) c3 ∧
      SerialBranchNode.step multiMachineImpl c3 (-5)
        = .Nonterminal (.Terminal .Negative 5) c4 ∧
      SerialBranchNode.step multiMachineImpl c4 5
        = .Nonterminal (.Nonterminal .Positive 5) c5 := by
  refine ⟨SerialBranchNode.from_existing switcharound (.Positive ⟨positivePredicate⟩),
      SerialBranchNode.new multiMachineImpl switcharound .Negative,
      SerialBranchNode.from_existing switcharound (.Negative ⟨negativePredicate⟩),
      SerialBranchNode.new multiMachineImpl switcharound .Positive,
      SerialBranchNode.from_existing switcharound (.Positive ⟨positivePredicate⟩),
      ?_, ?_, ?_, ?_, ?_⟩ <;> rfl

/-- View of a composite step result that keeps the subnode state of the
continuation and forgets the decider component. -/
def resultView : NodeResult R X (SerialBranchNode En σ I N T X) →
    NodeResult R X σ
  | .Nonterminal r n => .Nonterminal r n.node
  | .Terminal x => .Terminal x

/-- C2: pre-step selector reporting. When the composite's step result is
nonterminal, the selector embedded in the `NontermReturn` equals the active
subnode's discriminant as read before the subnode was stepped; and the step
consults the decider only at that pre-step selector: any decider agreeing
with the composite's decider at that selector produces the same result (up
to the decider component of the continuation). -/
theorem serial_pre_step_selector (impl : EnumNodeImpl En σ I N T)
    (self : SerialBranchNode En σ I N T X) (input : I)
    (r : NontermReturn En N T) (next : SerialBranchNode En σ I N T X)
    (h : SerialBranchNode.step impl self input = .Nonterminal r next)
    (d' : SerialDecider En I N T X)
    (hN : ∀ v, self.decider.on_nonterminal input (impl.discriminant_of self.node) v
      = d'.on_nonterminal input (impl.discriminant_of self.node) v)
    (hT : ∀ v, self.decider.on_terminal input (impl.discriminant_of self.node) v
      = d'.on_terminal input (impl.discriminant_of self.node) v) :
    r.selector = impl.discriminant_of self.node ∧
    resultView (SerialBranchNode.step impl
        (SerialBranchNode.mk self.node d') input)
      = resultView (SerialBranchNode.step impl self input) := by
  obtain ⟨nd, d⟩ := self
  simp only at h hN hT ⊢
  constructor
  · simp only [SerialBranchNode.step] at h
    cases hs : impl.step nd input <;> simp only [hs] at h
    case Nonterminal i n =>
      cases hd : d.on_nonterminal input (impl.discriminant_of nd) i <;>
          simp only [hd] at h
      case Step j =>
        injection h with h1 _; rw [← h1]; rfl
      case Trans e j =>
        injection h with h1 _; rw [← h1]; rfl
      case Exit x =>
        exact NodeResult.noConfusion h
    case Terminal i =>
      cases hd : d.on_terminal input (impl.discriminant_of nd) i <;>
          simp only [hd] at h
      case Trans e j =>
        injection h with h1 _; rw [← h1]; rfl
      case Exit x =>
        exact NodeResult.noConfusion h
  · cases hs : impl.step nd input
    case Nonterminal i n =>
      have key := hN i
      cases hd : d.on_nonterminal input (impl.discriminant_of nd) i <;>
        simp [SerialBranchNode.step, hs, ← key, hd, resultView,
          SerialBranchNode.from_existing, SerialBranchNode.new]
    case Terminal i =>
      have key := hT i
      cases hd : d.on_terminal input (impl.discriminant_of nd) i <;>
        simp [SerialBranchNode.step, hs, ← key, hd, resultView,
          SerialBranchNode.new]

/-- C2 witness: the pre-step selector property at the switcharound composite
on input 5. -/
theorem serial_pre_step_selector_witness :
    NontermReturn.selector
        (NontermReturn.Nonterminal PosNegEnum.Positive 5
          : NontermReturn PosNegEnum Int Int)
      = multiMachineImpl.discriminant_of (MultiMachine.new .Positive) ∧
    resultView (SerialBranchNode.step multiMachineImpl
        (SerialBranchNode.mk (MultiMachine.new .Positive) switcharound) 5)
      = resultView (SerialBranchNode.step multiMachineImpl
        (SerialBranchNode.mk (MultiMachine.new .Positive) switcharound) 5) :=
  serial_pre_step_selector multiMachineImpl
    (SerialBranchNode.mk (MultiMachine.new .Positive) switcharound) 5
    (.Nonterminal PosNegEnum.Positive 5)
    (SerialBranchNode.mk (MultiMachine.Positive ⟨positivePredicate⟩) switcharound)
    rfl switcharound (fun _ => rfl) (fun _ => rfl)

/-- C3: fresh-start on transition. Whenever the decider returns a `Trans`
decision — from either `on_nonterminal` or `on_terminal` — the previously
active subnode (or its continuation) is discarded and the new composite's
subnode is exactly `new e`, a node freshly built from the new selector, with
the decider threaded along. -/
theorem serial_fresh_start (impl : EnumNodeImpl En σ I N T)
    (self : SerialBranchNode En σ I N T X) (input : I) (e : En) (j : N)
    (jt : T) :
    (∀ i n, impl.step self.node input = .Nonterminal i n →
      self.decider.on_nonterminal input (impl.discriminant_of self.node) i
        = .Trans e j →
      SerialBranchNode.step impl self input
        = .Nonterminal (.Nonterminal (impl.discriminant_of self.node) j)
          (SerialBranchNode.mk (impl.new e) self.decider)) ∧
    (∀ i, impl.step self.node input = .Terminal i →
      self.decider.on_terminal input (impl.discriminant_of self.node) i
        = .Trans e jt →
      SerialBranchNode.step impl self input
        = .Nonterminal (.Terminal (impl.discriminant_of self.node) jt)
          (SerialBranchNode.mk (impl.new e) self.decider)) := by
  obtain ⟨nd, d⟩ := self
  simp only
  constructor
  · intro i n h1 h2
    simp [SerialBranchNode.step, h1, h2, SerialBranchNode.new]
  · intro i h1 h2
    simp [SerialBranchNode.step, h1, h2, SerialBranchNode.new]

/-- C3 witness: the terminal-path transition of the switcharound composite
on input -5 discards the Positive subnode and freshly constructs Negative. -/
theorem serial_fresh_start_witness :
    SerialBranchNode.step multiMachineImpl
        (SerialBranchNode.mk (MultiMachine.new .Positive) switcharound) (-5)
      = .Nonterminal
          (.Terminal (multiMachineImpl.discriminant_of (MultiMachine.new .Positive)) (-5))
          (SerialBranchNode.mk (multiMachineImpl.new .Negative) switcharound) :=
  (serial_fresh_start multiMachineImpl
    (SerialBranchNode.mk (MultiMachine.new .Positive) switcharound) (-5)
    .Negative 0 (-5)).2 (-5) rfl rfl

/-- C4: exit iff composite terminal. The composite's step result is
`Terminal x` exactly when the decider entry point invoked for this step
returned `Exit x`; the terminal value is the decider's exit value and no
continuation is produced. -/
theorem serial_exit_iff_terminal (impl : EnumNodeImpl En σ I N T)
    (self : SerialBranchNode En σ I N T X) (input : I) (x : X) :
    SerialBranchNode.step impl self input = .Terminal x ↔
      (∃ i n, impl.step self.node input = .Nonterminal i n ∧
        self.decider.on_nonterminal input (impl.discriminant_of self.node) i
          = .Exit x) ∨
      (∃ i, impl.step self.node input = .Terminal i ∧
        self.decider.on_terminal input (impl.discriminant_of self.node) i
          = .Exit x) := by
  obtain ⟨nd, d⟩ := self
  simp only
  cases hs : impl.step nd input
  case Nonterminal i n =>
    cases hd : d.on_nonterminal input (impl.discriminant_of nd) i <;>
      simp [SerialBranchNode.step, hs, hd]
  case Terminal i =>
    cases hd : d.on_terminal input (impl.discriminant_of nd) i <;>
      simp [SerialBranchNode.step, hs, hd]

/-- A decider that exits with the subnode's own value at every decision
point, used to exercise the exit path. -/
def exitDecider : SerialDecider PosNegEnum Int Int Int Int :=
  { on_nonterminal := fun _ _ o => .Exit o
    on_terminal := fun _ _ o => .Exit o }

/-- C4 witness: under the always-exit decider, the composite started at
Positive terminates on input 5 with exit value 5. -/
theorem serial_exit_iff_terminal_witness :
    SerialBranchNode.step multiMachineImpl
        (SerialBranchNode.mk (MultiMachine.new .Positive) exitDecider) 5
      = .Terminal 5 :=
  (serial_exit_iff_terminal multiMachineImpl
    (SerialBranchNode.mk (MultiMachine.new .Positive) exitDecider) 5 5).mpr
    (Or.inl ⟨5, MultiMachine.Positive ⟨positivePredicate⟩, rfl, rfl⟩)

/-- C5: consumption invariant. A step result that is `Terminal` structurally
carries no continuation value; only the `Nonterminal` variant of `NodeResult`
carries a node instance, so no further step is possible once a step yields
`Terminal`. -/
theorem node_result_consumption (res : NodeResult R T N) :
    ((∃ t, res = NodeResult.Terminal t) ↔ res.continuation = none) ∧
    (∀ n, res.continuation = some n ↔ ∃ r, res = NodeResult.Nonterminal r n) := by
  cases res <;> simp [NodeResult.continuation]

/-- C6: selector fidelity for the repository's enumerated node set. For
every selector `s`, `discriminant_of (new s) = s`; and for every live
instance, the reported discriminant matches the instance's actual variant
shape. -/
theorem multi_machine_selector_fidelity :
    (∀ s : PosNegEnum, (MultiMachine.new s).discriminant_of = s) ∧
    (∀ val, (MultiMachine.Positive val).discriminant_of = PosNegEnum.Positive) ∧
    (∀ val, (MultiMachine.Negative val).discriminant_of = PosNegEnum.Negative) := by
  refine ⟨fun s => ?_, fun _ => rfl, fun _ => rfl⟩
  cases s <;> rfl

/-- The `enum_node!`-generated step of `MultiMachine` rewraps the
continuation in the same variant, so stepping preserves the discriminant. -/
theorem multiMachine_step_preserves_discriminant (s : MultiMachine)
    (input v : Int) (n' : MultiMachine)
    (h : MultiMachine.step s input = .Nonterminal v n') :
    n'.discriminant_of = s.discriminant_of := by
  cases s with
  | Positive val =>
    cases hv : PredicateWait.step val input <;>
      simp only [MultiMachine.step, hv] at h
    case Nonterminal v0 o =>
      injection h with _ h2
      rw [← h2]; rfl
    case Terminal t =>
      exact NodeResult.noConfusion h
  | Negative val =>
    cases hv : PredicateWait.step val input <;>
      simp only [MultiMachine.step, hv] at h
    case Nonterminal v0 o =>
      injection h with _ h2
      rw [← h2]; rfl
    case Terminal t =>
      exact NodeResult.noConfusion h

/-- C7: same-selector continuation on Step. For an enumerated node set whose
step preserves the discriminant (as every `enum_node!`-generated set does),
when the subnode yields a nonterminal and the decider returns `Step j`, the
new composite's active subnode is the subnode's own continuation, wrapped
with the same decider, and its selector equals the pre-step selector. -/
theorem serial_step_same_selector (impl : EnumNodeImpl En σ I N T)
    (hpres : ∀ s inp v n', impl.step s inp = .Nonterminal v n' →
      impl.discriminant_of n' = impl.discriminant_of s)
    (self : SerialBranchNode En σ I N T X) (input : I) (i : N) (n : σ) (j : N)
    (h1 : impl.step self.node input = .Nonterminal i n)
    (h2 : self.decider.on_nonterminal input (impl.discriminant_of self.node) i
      = .Step j) :
    SerialBranchNode.step impl self input
      = .Nonterminal (.Nonterminal (impl.discriminant_of self.node) j)
        (SerialBranchNode.mk n self.decider) ∧
    impl.discriminant_of n = impl.discriminant_of self.node := by
  obtain ⟨nd, d⟩ := self
  simp only at h1 h2 ⊢
  refine ⟨?_, hpres _ _ _ _ h1⟩
  simp [SerialBranchNode.step, h1, h2, SerialBranchNode.from_existing]

/-- C7 witness: the switcharound composite at Positive on input 5 keeps the
continuation at the Positive selector. -/
theorem serial_step_same_selector_witness :
    SerialBranchNode.step multiMachineImpl
        (SerialBranchNode.mk (MultiMachine.new .Positive) switcharound) 5
      = .Nonterminal
          (.Nonterminal (multiMachineImpl.discriminant_of (MultiMachine.new .Positive)) 5)
          (SerialBranchNode.mk (MultiMachine.Positive ⟨positivePredicate⟩) switcharound) ∧
    multiMachineImpl.discriminant_of (MultiMachine.Positive ⟨positivePredicate⟩)
      = multiMachineImpl.discriminant_of (MultiMachine.new .Positive) :=
  serial_step_same_selector multiMachineImpl
    (fun s inp v n' h => multiMachine_step_preserves_discriminant s inp v n' h)
    (SerialBranchNode.mk (MultiMachine.new .Positive) switcharound) 5 5
    (MultiMachine.Positive ⟨positivePredicate⟩) 5 rfl rfl

/-- C8: decider frame. Whenever the composite's step result is nonterminal,
the decider component of the returned new composite equals the decider of
the composite that was stepped: the decider is threaded through unchanged
on both `Step` and `Trans` decisions. -/
theorem serial_decider_frame (impl : EnumNodeImpl En σ I N T)
    (self : SerialBranchNode En σ I N T X) (input : I)
    (r : NontermReturn En N T) (next : SerialBranchNode En σ I N T X)
    (h : SerialBranchNode.step impl self input = .Nonterminal r next) :
    next.decider = self.decider := by
  obtain ⟨nd, d⟩ := self
  simp only at h ⊢
  simp only [SerialBranchNode.step] at h
  cases hs : impl.step nd input <;> simp only [hs] at h
  case Nonterminal i n =>
    cases hd : d.on_nonterminal input (impl.discriminant_of nd) i <;>
      simp only [hd] at h
    case Step j =>
      injection h with _ h2; rw [← h2]; rfl
    case Trans e j =>
      injection h with _ h2; rw [← h2]; rfl
    case Exit x =>
      exact NodeResult.noConfusion h
  case Terminal i =>
    cases hd : d.on_terminal input (impl.discriminant_of nd) i <;>
      simp only [hd] at h
    case Trans e j =>
      injection h with _ h2; rw [← h2]; rfl
    case Exit x =>
      exact NodeResult.noConfusion h

/-- C8 witness: the decider of the continuation returned by the switcharound
composite on input 5 is the switcharound decider itself. -/
theorem serial_decider_frame_witness :
    (SerialBranchNode.mk (MultiMachine.Positive ⟨positivePredicate⟩)
        switcharound).decider
      = (SerialBranchNode.mk (MultiMachine.new .Positive) switcharound).decider :=
  serial_decider_frame multiMachineImpl
    (SerialBranchNode.mk (MultiMachine.new .Positive) switcharound) 5
    (.Nonterminal PosNegEnum.Positive 5)
    (SerialBranchNode.mk (MultiMachine.Positive ⟨positivePredicate⟩) switcharound)
    rfl

namespace Homogeneous

/-- Embedding of `homogeneous_serial_node::NontermDecision<T, X>`: no echoed
output value on `Step`. -/
inductive NontermDecision (T X : Type) where
  | Step
  | Trans (t : T)
  | Exit (x : X)

/-- Embedding of `homogeneous_serial_node::TermDecision<T, X>`. -/
inductive TermDecision (T X : Type) where
  | Trans (t : T)
  | Exit (x : X)

/-- Embedding of `homogeneous_serial_node::NontermReturn<E, N, T>`. -/
inductive NontermReturn (E N T : Type) where
  | Nonterminal (e : E) (n : N)
  | Terminal (e : E) (t : T)

/-- Trait dictionary for `homogeneous_serial_node::NodeEnumeration<N>`
together with the step function of the underlying homogeneous node type
`N` (state type `σN`); wrapper state type is `σE`. -/
structure NodeEnumeration (En σN σE I N T : Type) where
  stepN : σN → I → NodeResult N T σN
  new : En → σE
  from_existing : σN → σE
  discriminant : σE → En
  inner_val : σE → σN

/-- Trait dictionary for `homogeneous_serial_node::SerialDecider<E, N, T, X>`:
static entry points seeing only the selector and the subnode value. -/
structure SerialDecider (En N T X : Type) where
  on_nonterminal : En → N → NontermDecision En X
  on_terminal : En → T → TermDecision En X

/-- Embedding of `HomogeneousSerialNode`: the state is just the wrapped
enumeration value (the decider is a zero-sized type parameter). -/
structure HomogeneousSerialNode (σE : Type) where
  node : σE

/-- Embedding of `HomogeneousSerialNode::step` (homogeneous_serial_node.rs
lines 93-119): read the discriminant, step the unwrapped inner node, consult
the static decider, and apply the decision, echoing the subnode's own value
in the nonterminal return. -/
def HomogeneousSerialNode.step (ne : NodeEnumeration En σN σE I N T)
    (d : SerialDecider En N T X) (self : HomogeneousSerialNode σE)
    (input : I) :
    NodeResult (NontermReturn En N T) X (HomogeneousSerialNode σE) :=
  let discriminant := ne.discriminant self.node
  match ne.stepN (ne.inner_val self.node) input with
  | .Nonterminal i n =>
    match d.on_nonterminal discriminant i with
    | .Step => .Nonterminal (.Nonterminal discriminant i)
        (HomogeneousSerialNode.mk (ne.from_existing n))
    | .Trans e => .Nonterminal (.Nonterminal discriminant i)
        (HomogeneousSerialNode.mk (ne.new e))
    | .Exit x => .Terminal x
  | .Terminal i =>
    match d.on_terminal discriminant i with
    | .Trans e => .Nonterminal (.Terminal discriminant i)
        (HomogeneousSerialNode.mk (ne.new e))
    | .Exit x => .Terminal x

end Homogeneous

/-- Conversion of the homogeneous nonterminal return into the serial one
(the two types have identical shape). -/
def toSerialReturn : Homogeneous.NontermReturn E N T → NontermReturn E N T
  | .Nonterminal e n => .Nonterminal e n
  | .Terminal e t => .Terminal e t

/-- The `EnumNode` dictionary derived from a homogeneous node enumeration:
its step unwraps the inner node, steps it, and rewraps the continuation. -/
def derivedImpl (ne : Homogeneous.NodeEnumeration En σN σE I N T) :
    EnumNodeImpl En σE I N T :=
  { new := ne.new
    discriminant_of := ne.discriminant
    step := fun s i =>
      match ne.stepN (ne.inner_val s) i with
      | .Nonterminal v n => .Nonterminal v (ne.from_existing n)
      | .Terminal t => .Terminal t }

/-- The serial decider derived from a homogeneous decider: it ignores the
input and echoes the subnode's value unchanged, mapping `Step` to
`Step value`, `Trans e` to `Trans e value` and `Exit x` to `Exit x`. -/
def derivedDecider (d : Homogeneous.SerialDecider En N T X) :
    SerialDecider En I N T X :=
  { on_nonterminal := fun _ s v =>
      match d.on_nonterminal s v with
      | .Step => .Step v
      | .Trans e => .Trans e v
      | .Exit x => .Exit x
    on_terminal := fun _ s v =>
      match d.on_terminal s v with
      | .Trans e => .Trans e v
      | .Exit x => .Exit x }

/-- View of a homogeneous step result keeping the wrapped node state of the
continuation. -/
def hResultView :
    NodeResult (Homogeneous.NontermReturn En N T) X
      (Homogeneous.HomogeneousSerialNode σE) →
    NodeResult (NontermReturn En N T) X σE
  | .Nonterminal r n => .Nonterminal (toSerialReturn r) n.node
  | .Terminal x => .Terminal x

/-- C9: homogeneous reduction. For every node enumeration and homogeneous
decider, the homogeneous machine's step agrees with the serial-branch
machine driven by the derived decider that ignores the input and echoes the
subnode's value: the two step functions produce identical results and
identical successor subnode states. -/
theorem homogeneous_is_special_case
    (ne : Homogeneous.NodeEnumeration En σN σE I N T)
    (d : Homogeneous.SerialDecider En N T X) (s : σE) (input : I) :
    resultView (SerialBranchNode.step (derivedImpl ne)
        (SerialBranchNode.mk s (derivedDecider d)) input)
      = hResultView (Homogeneous.HomogeneousSerialNode.step ne d
        (Homogeneous.HomogeneousSerialNode.mk s) input) := by
  cases hs : ne.stepN (ne.inner_val s) input
  case Nonterminal i n =>
    cases hd : d.on_nonterminal (ne.discriminant s) i <;>
      simp [SerialBranchNode.step, Homogeneous.HomogeneousSerialNode.step,
        derivedImpl, derivedDecider, hs, hd, resultView, hResultView,
        toSerialReturn, SerialBranchNode.from_existing,
        SerialBranchNode.new]
  case Terminal i =>
    cases hd : d.on_terminal (ne.discriminant s) i <;>
      simp [SerialBranchNode.step, Homogeneous.HomogeneousSerialNode.step,
        derivedImpl, derivedDecider, hs, hd, resultView, hResultView,
        toSerialReturn, SerialBranchNode.new]

/-- C10: default construction. `Default for SerialBranchNode` builds the
composite at the selector `from_u64 0` and unwraps: when the conversion
yields `some s`, the default equals `new(D::default(), s)`; when it yields
`none`, the panic branch is reached (embedded as `none`). -/
theorem serial_default_node (impl : EnumNodeImpl En σ I N T)
    (from_u64 : Nat → Option En) (dDefault : SerialDecider En I N T X) :
    (∀ s, from_u64 0 = some s →
      SerialBranchNode.defaultNode impl from_u64 dDefault
        = some (SerialBranchNode.new impl dDefault s)) ∧
    (from_u64 0 = none →
      SerialBranchNode.defaultNode impl from_u64 dDefault = none) := by
  constructor
  · intro s h
    simp [SerialBranchNode.defaultNode, h]
  · intro h
    simp [SerialBranchNode.defaultNode, h]

/-- C10 witness: for `PosNegEnum`, `from_u64 0 = some Positive`, so the
default composite is the one freshly constructed at Positive. -/
theorem serial_default_node_witness :
    SerialBranchNode.defaultNode multiMachineImpl PosNegEnum.from_u64
        switcharound
      = some (SerialBranchNode.new multiMachineImpl switcharound .Positive) :=
  (serial_default_node multiMachineImpl PosNegEnum.from_u64 switcharound).1
    .Positive rfl
